import Mathlib

/-!
Shallow embedding of `via/blocker.py` (the Via blocker WSGI middleware).

Strings from the Python side are modelled as `List Char`; small fixed tags
(classification types, block reasons, template names) are modelled as Lean
`String` literals. Fallible Python code (the `urlparse` ValueError on
mismatched IPv6 brackets, `IndexError` on an empty reason list, attribute
access on `None`) is modelled with `Except String`.

The URL parser is a model of the Python 2.7 standard library `urlparse`
(`urlsplit` + parameter splitting), which is what `via.blocker` imports:
scheme detection (with the `http:` fast path and the port-number guard),
netloc extraction after a leading `//` (with the "Invalid IPv6 URL" check
on mismatched square brackets), fragment and query splitting, and `;`
parameter splitting for schemes that use parameters.
-/

/-- Result of `urlparse`: scheme, netloc, path, params, query, fragment. -/
structure ParseResult where
  scheme : List Char
  netloc : List Char
  path : List Char
  params : List Char
  query : List Char
  fragment : List Char
deriving DecidableEq, Repr

/-- Characters allowed in a URL scheme (Python `urlparse.scheme_chars`). -/
def isSchemeChar (c : Char) : Bool :=
  c.isAlpha || c.isDigit || c == '+' || c == '-' || c == '.'

/-- Model of the scheme-splitting phase of Python 2.7 `urlsplit`: the text
before the first `:` is a scheme if it is non-empty, made of scheme
characters, and the remainder is not a pure port number; the literal
`http` prefix takes the optimized branch, which skips the port guard.
Returns `(scheme, rest)`. -/
def splitScheme (url : List Char) : List Char × List Char :=
  let pre := url.takeWhile (fun c => c != ':')
  if pre.length < url.length ∧ pre ≠ [] then
    if pre = "http".data then (pre, url.drop (pre.length + 1))
    else if pre.all isSchemeChar then
      let rest := url.drop (pre.length + 1)
      if rest = [] ∨ ¬ rest.all Char.isDigit then (pre.map Char.toLower, rest)
      else ([], url)
    else ([], url)
  else ([], url)

/-- Model of `urlparse._splitnetloc` together with the bracket validity
check: when the remainder starts with `//`, the netloc runs until the
first `/`, `?` or `#`; a netloc with an unmatched `[` or `]` raises
`ValueError("Invalid IPv6 URL")`. -/
def splitNetloc (url : List Char) : Except String (List Char × List Char) :=
  if url.take 2 = "//".data then
    let netloc := (url.drop 2).takeWhile (fun c => !(c == '/' || c == '?' || c == '#'))
    let rest := (url.drop 2).dropWhile (fun c => !(c == '/' || c == '?' || c == '#'))
    if ('[' ∈ netloc ∧ ']' ∉ netloc) ∨ (']' ∈ netloc ∧ '[' ∉ netloc) then
      Except.error "Invalid IPv6 URL"
    else Except.ok (netloc, rest)
  else Except.ok ([], url)

/-- Schemes for which Python 2.7 `urlparse` splits `;`-parameters
(`urlparse.uses_params`, which notably contains the empty scheme). -/
def uses_params : List (List Char) :=
  ["ftp".data, "hdl".data, "prospero".data, "http".data, "imap".data,
   "https".data, "shttp".data, "rtsp".data, "rtspu".data, "sip".data,
   "sips".data, "mms".data, "".data, "sftp".data, "tel".data]

/-- Model of `urlparse._splitparams`: split the last path segment at the
first `;` occurring at or after the final `/` (or the first `;` at all
when there is no `/`). -/
def _splitparams (url : List Char) : List Char × List Char :=
  if '/' ∈ url then
    match url.reverse.findIdx? (fun c => c == '/') with
    | none => (url, [])
    | some k =>
      let r := url.length - 1 - k
      match (url.drop r).findIdx? (fun c => c == ';') with
      | none => (url, [])
      | some j => (url.take (r + j), url.drop (r + j + 1))
  else
    match url.findIdx? (fun c => c == ';') with
    | none => (url, [])
    | some i => (url.take i, url.drop (i + 1))

/-- Model of Python 2.7 `urlparse.urlparse` (with `allow_fragments` left at
its default): scheme split, netloc split (may raise on mismatched
brackets), fragment split at the first `#`, query split at the first `?`
of the pre-fragment part, then parameter split for schemes in
`uses_params`. -/
def urlparse (url : List Char) : Except String ParseResult :=
  let sr := splitScheme url
  match splitNetloc sr.2 with
  | Except.error e => Except.error e
  | Except.ok (netloc, rest1) =>
    let rest2 := rest1.takeWhile (fun c => c != '#')
    let fragment := (rest1.dropWhile (fun c => c != '#')).drop 1
    let rest3 := rest2.takeWhile (fun c => c != '?')
    let query := (rest2.dropWhile (fun c => c != '?')).drop 1
    let pp := if sr.1 ∈ uses_params ∧ ';' ∈ rest3 then _splitparams rest3 else (rest3, [])
    Except.ok ⟨sr.1, netloc, pp.1, pp.2, query, fragment⟩

/-- Python `url.lstrip("/")`: remove every leading `/`. -/
def lstripSlash (url : List Char) : List Char :=
  url.dropWhile (fun c => c == '/')

/-- `ClassifiedURL._clean_url`: strip the leading slashes, parse, and if no
scheme is present prepend `http://` and re-parse. Returns the cleaned URL
together with its parse. -/
def _clean_url (url : List Char) : Except String (List Char × ParseResult) :=
  let u := lstripSlash url
  match urlparse u with
  | Except.error e => Except.error e
  | Except.ok parsed =>
    if parsed.scheme = [] then
      match urlparse ("http://".data ++ u) with
      | Except.error e => Except.error e
      | Except.ok parsed2 => Except.ok ("http://".data ++ u, parsed2)
    else Except.ok (u, parsed)

/-- The cleaning procedure exactly as the spec words it: strip a SINGLE
leading `/`, then prepend `http://` if and only if no scheme is present.
Used only to compare the spec wording with the source `_clean_url`. -/
def cleanSpecOne (url : List Char) : Except String (List Char) :=
  let u := match url with
    | '/' :: t => t
    | _ => url
  match urlparse u with
  | Except.error e => Except.error e
  | Except.ok parsed =>
    if parsed.scheme = [] then Except.ok ("http://".data ++ u)
    else Except.ok u

/-- Model of `re.match(r"^/([a-z]{2})_/(.*)$", path)`: the path must start
with `/`, two ASCII lowercase letters and `_/`; `.` does not match a
newline, and `$` also matches just before a single trailing newline.
Returns `(group 1, group 2)` on a match. -/
def subResourceMatch (path : List Char) : Option (List Char × List Char) :=
  match path with
  | '/' :: c1 :: c2 :: '_' :: '/' :: rest =>
    if c1.isLower ∧ c2.isLower then
      if '\n' ∈ rest then
        if rest.getLast? = some '\n' ∧ '\n' ∉ rest.dropLast then
          some ([c1, c2], rest.dropLast)
        else none
      else some ([c1, c2], rest)
    else none
  | _ => none

/-- `via.blocker.ClassifiedURL`: a URL with extra information about its
source. `type` is one of the Python strings `"3rd_party"`,
`"via_landing_page"`, `"via_sub_resource"`, `"via_page"`, or `none` for
the falsy-input safety valve. -/
structure ClassifiedURL where
  raw_url : Option (List Char)
  type : Option String
  effective_url : Option (List Char)
  parsed : Option ParseResult
  resource_type : Option (List Char)
deriving DecidableEq, Repr

/-- `ClassifiedURL.__init__`: cleans the effective URL when one is given
(a falsy, i.e. empty, effective URL is treated like `None`), and keeps
`resource_type` only when the type is `"via_sub_resource"`. -/
def ClassifiedURL.init (type_ : Option String) (raw_url : Option (List Char))
    (effective_url : Option (List Char)) (resource_type : Option (List Char)) :
    Except String ClassifiedURL :=
  let rt := if type_ = some "via_sub_resource" then resource_type else none
  match effective_url with
  | some e =>
    if e = [] then Except.ok ⟨raw_url, type_, none, none, rt⟩
    else
      match _clean_url e with
      | Except.error err => Except.error err
      | Except.ok up => Except.ok ⟨raw_url, type_, some up.1, some up.2, rt⟩
  | none => Except.ok ⟨raw_url, type_, none, none, rt⟩

/-- `ClassifiedURL.classify(raw_url, via_host, assume_via)`: the safety
valve for falsy input, the third-party check against the Via host, the
landing page check, the sub-resource pattern, and the via-page fallback. -/
def ClassifiedURL.classify (raw_url : Option (List Char)) (via_host : Option (List Char))
    (assume_via : Bool) : Except String ClassifiedURL :=
  if raw_url = none ∨ raw_url = some [] then
    ClassifiedURL.init none raw_url none none
  else
    match urlparse (raw_url.getD []) with
    | Except.error e => Except.error e
    | Except.ok parsed =>
      if ¬ assume_via ∧ some parsed.netloc ≠ via_host then
        ClassifiedURL.init (some "3rd_party") raw_url none none
      else if parsed.path = ['/'] then
        ClassifiedURL.init (some "via_landing_page") raw_url none none
      else
        match subResourceMatch parsed.path with
        | some tr => ClassifiedURL.init (some "via_sub_resource") raw_url (some tr.2) (some tr.1)
        | none => ClassifiedURL.init (some "via_page") raw_url (some parsed.path) none

/-- `Blocker.templates`: map from block reasons to template name and
status code, as a lookup returning `none` for unknown reasons. -/
def Blocker.templatesGet (reason : String) : Option (String × Nat) :=
  if reason = "malicious" then some ("malicious_website_warning.html.jinja2", 200)
  else if reason = "publisher-blocked" then some ("disallow_access.html.jinja2", 451)
  else if reason = "other" then some ("could_not_process.html.jinja2", 200)
  else none

/-- `Blocker._get_urls_to_check(url, referrer)`: the three ordered rules
deciding which of the classified URLs get a full or a block-list-only
check. -/
def Blocker._get_urls_to_check (url referrer : ClassifiedURL) :
    Option ClassifiedURL × Option ClassifiedURL × String :=
  if url.type = some "via_landing_page" then (none, none, "landing_page")
  else if referrer.type = some "via_page" ∨ referrer.type = some "via_sub_resource" then
    (none, some url, "sub_resource_check")
  else (some url, none, "page_to_check")

/-- The Checkmate response consumed by the blocker: the ordered reason
codes, plus the `presentation_url` field the spec describes on the check
result. -/
structure Hits where
  reason_codes : List String
  presentation_url : Option (List Char)
deriving DecidableEq, Repr

/-- The observable parts of the `werkzeug` `Response` the blocker builds:
which template is rendered, its display parameters, the status code and
the mimetype. -/
structure BlockResponse where
  template_name : String
  url_to_annotate : Option (List Char)
  domain_to_annotate : List Char
  status : Nat
  mimetype : String
deriving DecidableEq, Repr

/-- `Blocker._render_block_template(hits, classified_url)`: look up the
first reason code in the template table with the `"other"` entry as the
fallback, and render it with the effective URL and its netloc. A missing
first reason raises `IndexError`; a classified URL that was never parsed
raises `AttributeError` on `None.netloc`. -/
def Blocker._render_block_template (hits : Hits) (classified_url : ClassifiedURL) :
    Except String BlockResponse :=
  match hits.reason_codes with
  | [] => Except.error "IndexError"
  | r :: _ =>
    match classified_url.parsed with
    | none => Except.error "AttributeError"
    | some p =>
      let ts := (Blocker.templatesGet r).getD ("could_not_process.html.jinja2", 200)
      Except.ok ⟨ts.1, classified_url.effective_url, p.netloc, ts.2, "text/html"⟩

/-- Observable interaction with the Checkmate client: the list of
`check_url(url, allow_all)` invocations made so far, and how many
warnings have been logged. -/
structure Trace where
  calls : List (Option (List Char) × Bool)
  warnings : Nat
deriving DecidableEq, Repr

/-- The external Checkmate backend: `check_url` either returns an optional
hit or raises a `CheckmateException`. -/
abbrev Backend : Type := Option (List Char) → Bool → Except Unit (Option Hits)

/-- `Blocker._check_url(url, allow_all)`: call Checkmate, and on a
`CheckmateException` log a warning and return `None`. Every call is
recorded in the trace. -/
def Blocker._check_url (backend : Backend) (t : Trace) (url : Option (List Char))
    (allow_all : Bool) : Trace × Option Hits :=
  match backend url allow_all with
  | Except.ok hits => (⟨t.calls ++ [(url, allow_all)], t.warnings⟩, hits)
  | Except.error _ => (⟨t.calls ++ [(url, allow_all)], t.warnings + 1⟩, none)

/-- Outcome of one request through the middleware: either a block
response, or pass-through to the wrapped WSGI application. -/
inductive WsgiResult where
  | passThrough : WsgiResult
  | blocked : BlockResponse → WsgiResult
deriving DecidableEq, Repr

/-- The `for url_to_check, allow_all in ((full_check, False), (partial_check,
True))` loop of `Blocker.__call__`: skip absent checks, skip checks with no
hits, and return the rendered block page on the first hit. -/
def Blocker.applyChecks (backend : Backend) (t : Trace)
    (checks : List (Option ClassifiedURL × Bool)) : Trace × Except String WsgiResult :=
  match checks with
  | [] => (t, Except.ok WsgiResult.passThrough)
  | (none, _) :: rest => Blocker.applyChecks backend t rest
  | (some cu, allow) :: rest =>
    match Blocker._check_url backend t cu.effective_url allow with
    | (t2, none) => Blocker.applyChecks backend t2 rest
    | (t2, some h) =>
      match Blocker._render_block_template h cu with
      | Except.error e => (t2, Except.error e)
      | Except.ok resp => (t2, Except.ok (WsgiResult.blocked resp))

/-- The WSGI environ fields `Blocker.__call__` reads: the request path,
the `Host` header and the `Referer` header. -/
structure Environ where
  path_info : List Char
  http_host : Option (List Char)
  http_referer : Option (List Char)
deriving DecidableEq, Repr

/-- `Blocker.__call__`: classify the request path (assuming Via) and the
referrer, select the checks with the rule table, and run them in order;
uncaught exceptions (URL parse errors, render errors) propagate. -/
def Blocker.call (backend : Backend) (t : Trace) (env : Environ) :
    Trace × Except String WsgiResult :=
  match ClassifiedURL.classify (some env.path_info) env.http_host true with
  | Except.error e => (t, Except.error e)
  | Except.ok classified_url =>
    match ClassifiedURL.classify env.http_referer env.http_host false with
    | Except.error e => (t, Except.error e)
    | Except.ok classified_referrer =>
      let checks := Blocker._get_urls_to_check classified_url classified_referrer
      Blocker.applyChecks backend t [(checks.1, false), (checks.2.1, true)]

/-- A sequence of independent requests against the same blocker: the
Checkmate interaction trace is threaded through, each request yields its
own outcome. -/
def Blocker.callMany (backend : Backend) (t : Trace) (envs : List Environ) :
    Trace × List (Except String WsgiResult) :=
  match envs with
  | [] => (t, [])
  | e :: rest =>
    let r := Blocker.call backend t e
    let rr := Blocker.callMany backend r.1 rest
    (rr.1, r.2 :: rr.2)

/-- A backend that never reports a block. -/
def noBlockBackend : Backend := fun _ _ => Except.ok none

/-- A backend that always raises `CheckmateException`. -/
def errBackend : Backend := fun _ _ => Except.error ()

/-! ### Concrete fixtures used by witnesses and counterexamples -/

/-- A classified URL of the landing-page type. -/
def cuLanding : ClassifiedURL := ⟨some "/".data, some "via_landing_page", none, none, none⟩

/-- The classified URL of an absent referrer. -/
def cuNone : ClassifiedURL := ⟨none, none, none, none, none⟩

/-- The parse of `http://x`. -/
def pX : ParseResult := ⟨"http".data, "x".data, [], [], [], []⟩

/-- A classified via-page URL with effective URL `http://x`. -/
def cuPage : ClassifiedURL := ⟨some "/x".data, some "via_page", some "http://x".data, some pX, none⟩

/-- A request for `/http://example.com` on host `via` with no referrer. -/
def envEx : Environ := ⟨"/http://example.com".data, some "via".data, none⟩

/-- The empty Checkmate trace. -/
def t0 : Trace := ⟨[], 0⟩

/-- A hit whose `presentation_url` is set. -/
def c8hits : Hits := ⟨["malicious"], some "http://elsewhere.example.com".data⟩

/-- The response actually rendered for a `malicious` hit at `cuPage`. -/
def respEx : BlockResponse :=
  ⟨"malicious_website_warning.html.jinja2", cuPage.effective_url, "x".data, 200, "text/html"⟩

/-- The classification of the sub-resource request `/oe_/https://example.com`. -/
def cSub : ClassifiedURL :=
  ⟨some "/oe_/https://example.com".data, some "via_sub_resource",
   some "https://example.com".data,
   some ⟨"https".data, "example.com".data, [], [], [], []⟩, some "oe".data⟩

deriving instance DecidableEq for Except

/-! ### C1 and C10: the rule engine -/

/-- C1: the rule engine follows the three-rule precedence exactly: a
landing-page URL yields `(None, None, "landing_page")` regardless of the
referrer; otherwise a `via_page` or `via_sub_resource` referrer yields a
partial check on the URL and no full check; otherwise a full check on the
URL and no partial check. -/
theorem via_c1 (url referrer : ClassifiedURL) :
    (url.type = some "via_landing_page" →
      Blocker._get_urls_to_check url referrer = (none, none, "landing_page"))
    ∧ (url.type ≠ some "via_landing_page" →
        (referrer.type = some "via_page" ∨ referrer.type = some "via_sub_resource") →
        Blocker._get_urls_to_check url referrer = (none, some url, "sub_resource_check"))
    ∧ (url.type ≠ some "via_landing_page" →
        referrer.type ≠ some "via_page" → referrer.type ≠ some "via_sub_resource" →
        Blocker._get_urls_to_check url referrer = (some url, none, "page_to_check")) := by
  refine ⟨fun h => ?_, fun h1 h2 => ?_, fun h1 h2 h3 => ?_⟩
  · simp [Blocker._get_urls_to_check, h]
  · simp [Blocker._get_urls_to_check, h1, h2]
  · simp [Blocker._get_urls_to_check, h1, h2, h3]

/-- Witness for C1 at concrete classified URLs. -/
theorem via_c1_witness :
    Blocker._get_urls_to_check cuLanding cuPage = (none, none, "landing_page")
    ∧ Blocker._get_urls_to_check cuPage cuPage = (none, some cuPage, "sub_resource_check")
    ∧ Blocker._get_urls_to_check cuPage cuNone = (some cuPage, none, "page_to_check") :=
  ⟨(via_c1 cuLanding cuPage).1 (by decide),
   (via_c1 cuPage cuPage).2.1 (by decide) (Or.inl (by decide)),
   (via_c1 cuPage cuNone).2.2 (by decide) (by decide) (by decide)⟩

/-- C10: the rule engine never requests both a full and a partial check,
and whichever check it requests is the `url` argument itself, never the
referrer. -/
theorem via_c10 (url referrer : ClassifiedURL) :
    (¬ ((Blocker._get_urls_to_check url referrer).1.isSome
        ∧ (Blocker._get_urls_to_check url referrer).2.1.isSome))
    ∧ (∀ c, (Blocker._get_urls_to_check url referrer).1 = some c → c = url)
    ∧ (∀ c, (Blocker._get_urls_to_check url referrer).2.1 = some c → c = url) := by
  unfold Blocker._get_urls_to_check
  split
  · simp
  · split <;> simp

/-- Witness for C10: at a concrete input the full check is the URL itself
and the two checks are not both requested. -/
theorem via_c10_witness :
    ¬ (((Blocker._get_urls_to_check cuPage cuNone).1).isSome
       ∧ ((Blocker._get_urls_to_check cuPage cuNone).2.1).isSome)
    ∧ cuPage = cuPage :=
  ⟨(via_c10 cuPage cuNone).1, (via_c10 cuPage cuNone).2.1 cuPage (by decide)⟩

/-! ### C3: the check resolver does not cache -/

/-- Counterexample to C3: two identical requests for `/http://example.com`
each trigger a full check of the same key `(http://example.com, False)`,
and the backend is invoked a second time — `_check_url` has no cache, so
the duplicate key does not suppress the second backend call (the claim
requires at most one invocation for the repeated key). -/
theorem via_c3_counterexample :
    (Blocker.callMany noBlockBackend t0 [envEx, envEx]).1.calls
      = [(some "http://example.com".data, false), (some "http://example.com".data, false)]
    ∧ (Blocker.callMany noBlockBackend t0 [envEx, envEx]).1.calls.length = 2 := by
  constructor <;> decide

/-- C3 amended: the check resolver performs no memoization at all — every
call of `_check_url` invokes the backend exactly once and appends exactly
its own key to the call trace, regardless of any earlier identical
call. -/
theorem via_c3_amended (backend : Backend) (t : Trace) (url : Option (List Char))
    (allow_all : Bool) :
    (Blocker._check_url backend t url allow_all).1.calls = t.calls ++ [(url, allow_all)] := by
  unfold Blocker._check_url
  cases backend url allow_all <;> rfl

/-! ### C7 and C8: the decision renderer -/

/-- C7: with a non-empty reason list (and a parsed classified URL, so the
template parameters can be computed), the renderer selects the template
and status by the first reason: `malicious` gives the warning page with
status 200, `publisher-blocked` gives the access-denial page with status
451, and every other reason falls back to the generic page with status
200. -/
theorem via_c7 (hits : Hits) (cu : ClassifiedURL) (p : ParseResult) (r : String)
    (rest : List String) (hp : cu.parsed = some p) (hr : hits.reason_codes = r :: rest) :
    Blocker._render_block_template hits cu = Except.ok
      ⟨(if r = "malicious" then "malicious_website_warning.html.jinja2"
        else if r = "publisher-blocked" then "disallow_access.html.jinja2"
        else "could_not_process.html.jinja2"),
       cu.effective_url, p.netloc,
       (if r = "publisher-blocked" then 451 else 200), "text/html"⟩ := by
  unfold Blocker._render_block_template Blocker.templatesGet
  rw [hr, hp]
  by_cases h1 : r = "malicious"
  · subst h1; simp
  · by_cases h2 : r = "publisher-blocked"
    · subst h2; simp
    · by_cases h3 : r = "other" <;> simp [h1, h2, h3]

/-- Witness for C7: a `publisher-blocked` hit renders the access-denial
template with status 451. -/
theorem via_c7_witness :
    Blocker._render_block_template ⟨["publisher-blocked"], none⟩ cuPage = Except.ok
      ⟨"disallow_access.html.jinja2", cuPage.effective_url, "x".data, 451, "text/html"⟩ :=
  via_c7 ⟨["publisher-blocked"], none⟩ cuPage pX "publisher-blocked" [] rfl rfl

/-- Counterexample to C8: for a check result whose `presentation_url` is
set, the renderer still returns the inline block page with status 200 —
not an HTTP 307 redirect. `_render_block_template` never reads
`presentation_url`. -/
theorem via_c8_counterexample :
    c8hits.presentation_url = some "http://elsewhere.example.com".data
    ∧ (Blocker._render_block_template c8hits cuPage).map BlockResponse.status = Except.ok 200 := by
  exact ⟨rfl, rfl⟩

/-- C8 amended: the renderer ignores `presentation_url` entirely — its
output does not depend on that field, and it never issues a 307
redirect (the status is always the one from the reason table). -/
theorem via_c8_amended (hits : Hits) (cu : ClassifiedURL) (pu : Option (List Char)) :
    Blocker._render_block_template ⟨hits.reason_codes, pu⟩ cu
      = Blocker._render_block_template hits cu
    ∧ (∀ resp, Blocker._render_block_template hits cu = Except.ok resp → resp.status ≠ 307) := by
  constructor
  · rfl
  · intro resp h
    unfold Blocker._render_block_template Blocker.templatesGet at h
    rcases hr : hits.reason_codes with _ | ⟨r, rest⟩ <;> rw [hr] at h
    · exact absurd h (by simp)
    · rcases hp : cu.parsed with _ | p <;> rw [hp] at h
      · exact absurd h (by simp)
      · by_cases h1 : r = "malicious"
        · simp [h1] at h; rw [← h]; simp
        · by_cases h2 : r = "publisher-blocked"
          · simp [h1, h2] at h; rw [← h]; simp
          · by_cases h3 : r = "other" <;> simp [h1, h2, h3] at h <;> rw [← h] <;> simp

/-- Witness for C8 amended: at a concrete hit the output is independent of
`presentation_url`, and the rendered status is not 307. -/
theorem via_c8_witness :
    Blocker._render_block_template ⟨["malicious"], some "http://elsewhere.example.com".data⟩ cuPage
      = Blocker._render_block_template ⟨["malicious"], none⟩ cuPage
    ∧ respEx.status ≠ 307 :=
  ⟨(via_c8_amended ⟨["malicious"], none⟩ cuPage (some "http://elsewhere.example.com".data)).1,
   (via_c8_amended ⟨["malicious"], none⟩ cuPage none).2 respEx rfl⟩

/-! ### C2: fail-open on backend failure -/

/-- With a backend that always raises, `_check_url` logs one warning,
records the call, and returns `None`. -/
theorem check_url_err_eq (backend : Backend)
    (hb : ∀ u a, backend u a = Except.error ()) (t : Trace) (u : Option (List Char))
    (a : Bool) :
    Blocker._check_url backend t u a = (⟨t.calls ++ [(u, a)], t.warnings + 1⟩, none) := by
  unfold Blocker._check_url
  rw [hb]

/-- With a backend that always raises, the check loop always passes
through, and logs exactly one warning per backend call it makes. -/
theorem applyChecks_err (backend : Backend)
    (hb : ∀ u a, backend u a = Except.error ()) :
    ∀ (checks : List (Option ClassifiedURL × Bool)) (t : Trace),
      (Blocker.applyChecks backend t checks).2 = Except.ok WsgiResult.passThrough
      ∧ (Blocker.applyChecks backend t checks).1.warnings + t.calls.length
        = t.warnings + (Blocker.applyChecks backend t checks).1.calls.length := by
  intro checks
  induction checks with
  | nil => intro t; exact ⟨rfl, rfl⟩
  | cons hd rest ih =>
    intro t
    rcases hd with ⟨_ | cu, a⟩
    · exact ih t
    · show (Blocker.applyChecks backend t ((some cu, a) :: rest)).2 = _ ∧ _
      unfold Blocker.applyChecks
      rw [check_url_err_eq backend hb]
      refine ⟨(ih _).1, ?_⟩
      have h2 := (ih (⟨t.calls ++ [(cu.effective_url, a)], t.warnings + 1⟩ : Trace)).2
      simp only [List.length_append, List.length_cons, List.length_nil] at h2 ⊢
      omega

/-- With a backend that never reports a block, the check loop always
passes through. -/
theorem applyChecks_noBlock :
    ∀ (checks : List (Option ClassifiedURL × Bool)) (t : Trace),
      (Blocker.applyChecks noBlockBackend t checks).2 = Except.ok WsgiResult.passThrough := by
  intro checks
  induction checks with
  | nil => intro t; rfl
  | cons hd rest ih =>
    intro t
    rcases hd with ⟨_ | cu, a⟩
    · exact ih t
    · show (Blocker.applyChecks noBlockBackend t ((some cu, a) :: rest)).2 = _
      unfold Blocker.applyChecks Blocker._check_url noBlockBackend
      exact ih _

/-- C2: the system is fail-open — when every Checkmate call raises, the
request handler produces exactly the same outcome as with a backend that
reports "not blocked" (so any successful outcome is pass-through to the
wrapped application), and one warning is logged per check that was
attempted. -/
theorem via_c2 (backend : Backend) (t : Trace) (env : Environ)
    (hb : ∀ u a, backend u a = Except.error ()) :
    (Blocker.call backend t env).2 = (Blocker.call noBlockBackend t env).2
    ∧ (∀ r, (Blocker.call backend t env).2 = Except.ok r → r = WsgiResult.passThrough)
    ∧ (Blocker.call backend t env).1.warnings + t.calls.length
      = t.warnings + (Blocker.call backend t env).1.calls.length := by
  unfold Blocker.call
  rcases h1 : ClassifiedURL.classify (some env.path_info) env.http_host true with e1 | cu
  · exact ⟨rfl, fun r hr => absurd hr (by simp), rfl⟩
  · rcases h2 : ClassifiedURL.classify env.http_referer env.http_host false with e2 | cr
    · exact ⟨rfl, fun r hr => absurd hr (by simp), rfl⟩
    · have ha := applyChecks_err backend hb
        [((Blocker._get_urls_to_check cu cr).1, false),
         ((Blocker._get_urls_to_check cu cr).2.1, true)] t
      have hn := applyChecks_noBlock
        [((Blocker._get_urls_to_check cu cr).1, false),
         ((Blocker._get_urls_to_check cu cr).2.1, true)] t
      refine ⟨?_, ?_, ha.2⟩
      · rw [ha.1, hn]
      · intro r hr
        rw [ha.1] at hr
        exact (Except.ok.injEq _ _ ▸ hr).symm ▸ rfl

/-- Witness for C2: the always-raising backend at a concrete request gives
the same outcome as the never-blocking backend, passing through with the
warning accounted for. -/
theorem via_c2_witness :
    (Blocker.call errBackend t0 envEx).2 = (Blocker.call noBlockBackend t0 envEx).2
    ∧ (Blocker.call errBackend t0 envEx).1.warnings + t0.calls.length
      = t0.warnings + (Blocker.call errBackend t0 envEx).1.calls.length :=
  ⟨(via_c2 errBackend t0 envEx (fun _ _ => rfl)).1,
   (via_c2 errBackend t0 envEx (fun _ _ => rfl)).2.2⟩

/-! ### C6: cleaning a scheme-qualified URL is idempotent -/

/-- The scheme of a successful parse is exactly the scheme phase output. -/
theorem urlparse_scheme_eq (u : List Char) (p : ParseResult)
    (h : urlparse u = Except.ok p) : p.scheme = (splitScheme u).1 := by
  simp only [urlparse] at h
  rcases hn : splitNetloc (splitScheme u).2 with e | ⟨netloc, rest1⟩ <;> simp only [hn] at h
  · exact absurd h (by simp)
  · simp only [Except.ok.injEq] at h
    subst h
    rfl

/-- A URL with a non-empty scheme phase starts with a scheme character,
which in particular is not a slash. -/
theorem splitScheme_ne_nil_head (u : List Char) (h : (splitScheme u).1 ≠ []) :
    ∃ c t, u = c :: t ∧ (c == '/') = false := by
  unfold splitScheme at h
  by_cases h1 : (u.takeWhile (fun c => c != ':')).length < u.length
      ∧ u.takeWhile (fun c => c != ':') ≠ []
  · have hpre : ∃ c t', u.takeWhile (fun c => c != ':') = c :: t' := by
      rcases hw : u.takeWhile (fun c => c != ':') with _ | ⟨c, t'⟩
      · exact absurd hw h1.2
      · exact ⟨c, t', rfl⟩
    obtain ⟨c, t', hw⟩ := hpre
    have hu : u = c :: (t' ++ u.dropWhile (fun c => c != ':')) := by
      conv_lhs => rw [← List.takeWhile_append_dropWhile (fun c => c != ':') u]
      rw [hw]
      rfl
    rw [if_pos h1] at h
    by_cases h2 : u.takeWhile (fun c => c != ':') = "http".data
    · refine ⟨c, t' ++ u.dropWhile (fun c => c != ':'), hu, ?_⟩
      have hch : c = 'h' := by
        rw [hw] at h2
        exact (List.cons.injEq _ _ _ _ ▸ h2).1
      rw [hch]
      rfl
    · rw [if_neg h2] at h
      by_cases h3 : (u.takeWhile (fun c => c != ':')).all isSchemeChar
      · have hc : isSchemeChar c := by
          have hall := h3
          rw [hw, List.all_cons] at hall
          exact (Bool.and_eq_true _ _ ▸ hall).1
        refine ⟨c, t' ++ u.dropWhile (fun c => c != ':'), hu, ?_⟩
        by_cases hcs : c = '/'
        · rw [hcs] at hc
          exact absurd hc (by decide)
        · exact beq_eq_false_iff_ne.mpr hcs
      · rw [if_neg h3] at h
        exact absurd rfl h
  · rw [if_neg h1] at h
    exact absurd rfl h

/-- Stripping leading slashes from a URL that does not start with one is
the identity. -/
theorem lstripSlash_eq_self (c : Char) (t : List Char) (hc : (c == '/') = false) :
    lstripSlash (c :: t) = c :: t := by
  unfold lstripSlash
  rw [List.dropWhile_cons, hc]
  rfl

/-- C6: cleaning is idempotent on URLs that already carry a scheme —
`_clean_url` leaves such a URL unchanged, so cleaning its own output
gives the same result. -/
theorem via_c6 (u : List Char) (p : ParseResult) (hp : urlparse u = Except.ok p)
    (hs : p.scheme ≠ []) :
    (_clean_url u).bind (fun r => _clean_url r.1) = _clean_url u := by
  have h1 : (splitScheme u).1 ≠ [] := urlparse_scheme_eq u p hp ▸ hs
  obtain ⟨c, t, hu, hc⟩ := splitScheme_ne_nil_head u h1
  have hl : lstripSlash u = u := by rw [hu]; exact lstripSlash_eq_self c t hc
  have hclean : _clean_url u = Except.ok (u, p) := by
    simp only [_clean_url]
    rw [hl]
    simp only [hp]
    rw [if_neg hs]
  rw [hclean]
  exact hclean

/-- Witness for C6 at the fully-qualified URL `http://example.com`. -/
theorem via_c6_witness :
    (_clean_url "http://example.com".data).bind (fun r => _clean_url r.1)
      = _clean_url "http://example.com".data :=
  via_c6 "http://example.com".data ⟨"http".data, "example.com".data, [], [], [], []⟩
    (by decide) (by decide)

/-! ### C9: the resource-type invariant -/

/-- The constructor stores the requested type, and keeps `resource_type`
only for the sub-resource type. -/
theorem init_fields (t_ : Option String) (raw eff rt : Option (List Char))
    (c : ClassifiedURL) (h : ClassifiedURL.init t_ raw eff rt = Except.ok c) :
    c.type = t_ ∧ c.resource_type = (if t_ = some "via_sub_resource" then rt else none) := by
  rcases eff with _ | e
  · simp only [ClassifiedURL.init, Except.ok.injEq] at h
    subst h
    exact ⟨rfl, rfl⟩
  · simp only [ClassifiedURL.init] at h
    by_cases he : e = []
    · rw [if_pos he] at h
      simp only [Except.ok.injEq] at h
      subst h
      exact ⟨rfl, rfl⟩
    · rw [if_neg he] at h
      rcases hcl : _clean_url e with er | up <;> simp only [hcl] at h
      · exact absurd h (by simp)
      · simp only [Except.ok.injEq] at h
        subst h
        exact ⟨rfl, rfl⟩

/-- C9: for every classification produced by `classify`, the
`resource_type` field is set if and only if the type is
`via_sub_resource`. -/
theorem via_c9 (raw via_host : Option (List Char)) (av : Bool) (c : ClassifiedURL)
    (h : ClassifiedURL.classify raw via_host av = Except.ok c) :
    (c.resource_type ≠ none ↔ c.type = some "via_sub_resource") := by
  unfold ClassifiedURL.classify at h
  by_cases h0 : raw = none ∨ raw = some []
  · rw [if_pos h0] at h
    obtain ⟨ht, hr⟩ := init_fields none raw none none c h
    simp [ht, hr]
  · rw [if_neg h0] at h
    rcases hu : urlparse (raw.getD []) with e | parsed <;> simp only [hu] at h
    · exact absurd h (by simp)
    · by_cases h3 : ¬ av ∧ some parsed.netloc ≠ via_host
      · rw [if_pos h3] at h
        obtain ⟨ht, hr⟩ := init_fields _ raw none none c h
        simp [ht, hr]
      · rw [if_neg h3] at h
        by_cases h4 : parsed.path = ['/']
        · rw [if_pos h4] at h
          obtain ⟨ht, hr⟩ := init_fields _ raw none none c h
          simp [ht, hr]
        · rw [if_neg h4] at h
          rcases hm : subResourceMatch parsed.path with _ | tr <;> simp only [hm] at h
          · obtain ⟨ht, hr⟩ := init_fields _ raw (some parsed.path) none c h
            simp [ht, hr]
          · obtain ⟨ht, hr⟩ := init_fields _ raw (some tr.2) (some tr.1) c h
            simp [ht, hr]

/-- Witness for C9 at a concrete sub-resource classification. -/
theorem via_c9_witness : (cSub.resource_type ≠ none ↔ cSub.type = some "via_sub_resource") :=
  via_c9 (some "/oe_/https://example.com".data) (some "via".data) true cSub (by decide)

/-! ### C5: what the cleaning operation actually does -/

/-- Counterexample to C5 at the input `///`: the source strips ALL leading
slashes (giving `http://`), not exactly one (which per the spec procedure
would give `http:////`), and the output does not parse with a non-empty
host — its netloc is empty. -/
theorem via_c5_counterexample :
    (_clean_url "///".data).map Prod.fst = Except.ok "http://".data
    ∧ cleanSpecOne "///".data = Except.ok "http:////".data
    ∧ (_clean_url "///".data).map (fun r => r.2.netloc) = Except.ok [] := by
  exact ⟨rfl, rfl, rfl⟩

/-- The scheme phase of a parse of `http://` followed by anything is the
literal `http`. -/
theorem splitScheme_http_prepend (s : List Char) :
    splitScheme ("http://".data ++ s) = ("http".data, '/' :: '/' :: s) := by
  have hpre : (("http://".data ++ s).takeWhile (fun c => c != ':')) = "http".data := by
    show (('h' :: 't' :: 't' :: 'p' :: ':' :: '/' :: '/' :: s).takeWhile
      (fun c => c != ':')) = "http".data
    simp [List.takeWhile_cons]
  unfold splitScheme
  rw [hpre]
  rw [if_pos ⟨by simp, by decide⟩, if_pos rfl]
  rfl

/-- C5 amended: `_clean_url` strips ALL leading slashes and prepends
`http://` exactly when the stripped URL parses with no scheme; every
successful cleaning yields a URL whose parse has a non-empty scheme (the
host, however, may be empty, as the counterexample shows). -/
theorem via_c5_amended (u : List Char) (r : List Char × ParseResult)
    (h : _clean_url u = Except.ok r) :
    (∃ p, urlparse (lstripSlash u) = Except.ok p
      ∧ ((p.scheme = [] ∧ r.1 = "http://".data ++ lstripSlash u)
         ∨ (p.scheme ≠ [] ∧ r.1 = lstripSlash u)))
    ∧ r.2.scheme ≠ [] := by
  simp only [_clean_url] at h
  rcases hu : urlparse (lstripSlash u) with e | p <;> simp only [hu] at h
  · exact absurd h (by simp)
  · by_cases hs : p.scheme = []
    · rw [if_pos hs] at h
      rcases h2 : urlparse ("http://".data ++ lstripSlash u) with e2 | p2 <;>
        simp only [h2] at h
      · exact absurd h (by simp)
      · simp only [Except.ok.injEq] at h
        subst h
        refine ⟨⟨p, rfl, Or.inl ⟨hs, rfl⟩⟩, ?_⟩
        have hsch := urlparse_scheme_eq _ p2 h2
        rw [splitScheme_http_prepend] at hsch
        rw [hsch]
        exact (by decide : "http".data ≠ [])
    · rw [if_neg hs] at h
      simp only [Except.ok.injEq] at h
      subst h
      exact ⟨⟨p, rfl, Or.inr ⟨hs, rfl⟩⟩, hs⟩

/-- Witness for C5 amended: cleaning `//example.com` succeeds and the
resulting parse is scheme-qualified. -/
theorem via_c5_witness :
    (("http://example.com".data,
      (⟨"http".data, "example.com".data, [], [], [], []⟩ : ParseResult)) :
        List Char × ParseResult).2.scheme ≠ [] :=
  (via_c5_amended "//example.com".data
    ("http://example.com".data, ⟨"http".data, "example.com".data, [], [], [], []⟩)
    (by decide)).2

/-! ### C4: when classification can and cannot raise -/

/-- Counterexample to C4: the raw URL `//[` does not classify — the URL
parser raises `ValueError("Invalid IPv6 URL")` on the unmatched bracket in
netloc position, and `classify` does not catch it, so the parse failure
propagates to the caller. -/
theorem via_c4_counterexample :
    ClassifiedURL.classify (some "//[".data) (some "via".data) true
      = Except.error "Invalid IPv6 URL" := by
  decide

/-- The remainder left by the scheme phase is a sublist of the input. -/
theorem splitScheme_snd_sublist (u : List Char) : (splitScheme u).2.Sublist u := by
  simp only [splitScheme]
  split
  · split
    · exact List.drop_sublist _ _
    · split
      · split
        · exact List.drop_sublist _ _
        · exact List.Sublist.refl u
      · exact List.Sublist.refl u
  · exact List.Sublist.refl u

/-- On bracket-free input the netloc phase cannot raise, and leaves a
sublist of its input. -/
theorem splitNetloc_ok_of_no_bracket (u : List Char) (h1 : '[' ∉ u) (h2 : ']' ∉ u) :
    ∃ nl rest, splitNetloc u = Except.ok (nl, rest) ∧ rest.Sublist u := by
  simp only [splitNetloc]
  by_cases ht : u.take 2 = "//".data
  · rw [if_pos ht]
    have hnb1 : '[' ∉ (u.drop 2).takeWhile (fun c => !(c == '/' || c == '?' || c == '#')) :=
      fun hc => h1 (((List.takeWhile_sublist _).trans (List.drop_sublist _ _)).subset hc)
    have hnb2 : ']' ∉ (u.drop 2).takeWhile (fun c => !(c == '/' || c == '?' || c == '#')) :=
      fun hc => h2 (((List.takeWhile_sublist _).trans (List.drop_sublist _ _)).subset hc)
    rw [if_neg (by rintro (⟨ha, _⟩ | ⟨ha, _⟩) <;> [exact hnb1 ha; exact hnb2 ha])]
    exact ⟨_, _, rfl, (List.dropWhile_sublist _).trans (List.drop_sublist _ _)⟩
  · rw [if_neg ht]
    exact ⟨[], u, rfl, List.Sublist.refl u⟩

/-- The path part produced by parameter splitting is a sublist of its
input. -/
theorem _splitparams_fst_sublist (u : List Char) : (_splitparams u).1.Sublist u := by
  simp only [_splitparams]
  by_cases h : '/' ∈ u
  · rw [if_pos h]
    rcases hk : u.reverse.findIdx? (fun c => c == '/') with _ | k <;> simp only [hk]
    · exact List.Sublist.refl u
    · rcases hj : (u.drop (u.length - 1 - k)).findIdx? (fun c => c == ';') with _ | j <;>
        simp only [hj]
      · exact List.Sublist.refl u
      · exact List.take_sublist _ _
  · rw [if_neg h]
    rcases hi : u.findIdx? (fun c => c == ';') with _ | i <;> simp only [hi]
    · exact List.Sublist.refl u
    · exact List.take_sublist _ _

/-- On bracket-free input `urlparse` cannot raise, and the resulting path
is a sublist of the input. -/
theorem urlparse_ok_of_no_bracket (u : List Char) (h1 : '[' ∉ u) (h2 : ']' ∉ u) :
    ∃ p, urlparse u = Except.ok p ∧ p.path.Sublist u := by
  have hs2 := splitScheme_snd_sublist u
  have h1s : '[' ∉ (splitScheme u).2 := fun hc => h1 (hs2.subset hc)
  have h2s : ']' ∉ (splitScheme u).2 := fun hc => h2 (hs2.subset hc)
  obtain ⟨nl, rest, hok, hsub⟩ := splitNetloc_ok_of_no_bracket _ h1s h2s
  simp only [urlparse, hok]
  refine ⟨_, rfl, ?_⟩
  have hr3 : ((rest.takeWhile (fun c => c != '#')).takeWhile (fun c => c != '?')).Sublist u :=
    ((List.takeWhile_sublist _).trans ((List.takeWhile_sublist _).trans (hsub.trans hs2)))
  by_cases hc : (splitScheme u).1 ∈ uses_params
      ∧ ';' ∈ (rest.takeWhile (fun c => c != '#')).takeWhile (fun c => c != '?')
  · rw [if_pos hc]
    exact (_splitparams_fst_sublist _).trans hr3
  · rw [if_neg hc]
    exact hr3

/-- The second capture group of the sub-resource pattern is a sublist of
the matched path. -/
theorem subResourceMatch_snd_sublist (path : List Char) (tr : List Char × List Char)
    (h : subResourceMatch path = some tr) : tr.2.Sublist path := by
  unfold subResourceMatch at h
  split at h
  case h_2 => exact absurd h (by simp)
  case h_1 c1 c2 rest =>
    have hrest : rest.Sublist ('/' :: c1 :: c2 :: '_' :: '/' :: rest) :=
      ((((List.sublist_cons_self _ _).trans (List.sublist_cons_self _ _)).trans
        (List.sublist_cons_self _ _)).trans (List.sublist_cons_self _ _)).trans
        (List.sublist_cons_self _ _)
    by_cases hl : c1.isLower ∧ c2.isLower
    · rw [if_pos hl] at h
      by_cases hn : '\n' ∈ rest
      · rw [if_pos hn] at h
        by_cases hg : rest.getLast? = some '\n' ∧ '\n' ∉ rest.dropLast
        · rw [if_pos hg] at h
          cases h
          exact (List.dropLast_sublist rest).trans hrest
        · rw [if_neg hg] at h
          exact absurd h (by simp)
      · rw [if_neg hn] at h
        cases h
        exact hrest
    · rw [if_neg hl] at h
      exact absurd h (by simp)

/-- On bracket-free input `_clean_url` cannot raise. -/
theorem _clean_url_ok_of_no_bracket (e : List Char) (h1 : '[' ∉ e) (h2 : ']' ∉ e) :
    ∃ r, _clean_url e = Except.ok r := by
  have hl1 : '[' ∉ lstripSlash e := fun hc => h1 ((List.dropWhile_sublist _).subset hc)
  have hl2 : ']' ∉ lstripSlash e := fun hc => h2 ((List.dropWhile_sublist _).subset hc)
  obtain ⟨p, hp, _⟩ := urlparse_ok_of_no_bracket (lstripSlash e) hl1 hl2
  simp only [_clean_url, hp]
  by_cases hs : p.scheme = []
  · rw [if_pos hs]
    have hh1 : '[' ∉ "http://".data ++ lstripSlash e := by
      intro hc
      rcases List.mem_append.mp hc with hc | hc
      · exact absurd hc (by decide)
      · exact hl1 hc
    have hh2 : ']' ∉ "http://".data ++ lstripSlash e := by
      intro hc
      rcases List.mem_append.mp hc with hc | hc
      · exact absurd hc (by decide)
      · exact hl2 hc
    obtain ⟨p2, hp2, _⟩ := urlparse_ok_of_no_bracket _ hh1 hh2
    simp only [hp2]
    exact ⟨_, rfl⟩
  · rw [if_neg hs]
    exact ⟨_, rfl⟩

/-- The constructor cannot raise when any effective URL it is given is
bracket-free. -/
theorem init_ok (t_ : Option String) (raw eff rt : Option (List Char))
    (heff : ∀ e, eff = some e → ('[' ∉ e ∧ ']' ∉ e)) :
    ∃ c, ClassifiedURL.init t_ raw eff rt = Except.ok c := by
  rcases eff with _ | e
  · exact ⟨_, rfl⟩
  · simp only [ClassifiedURL.init]
    by_cases he : e = []
    · rw [if_pos he]
      exact ⟨_, rfl⟩
    · rw [if_neg he]
      obtain ⟨r, hr⟩ := _clean_url_ok_of_no_bracket e (heff e rfl).1 (heff e rfl).2
      simp only [hr]
      exact ⟨_, rfl⟩

/-- C4 amended: classification never raises on inputs that contain no
square bracket — for every such raw URL, `classify` returns a
classification. (By the counterexample, inputs with an unmatched bracket
in netloc position do raise, so the bracket-freedom hypothesis is what
the code actually supports.) -/
theorem via_c4_amended (raw via_host : Option (List Char)) (av : Bool)
    (hb : ∀ s, raw = some s → ('[' ∉ s ∧ ']' ∉ s)) :
    ∃ c, ClassifiedURL.classify raw via_host av = Except.ok c := by
  unfold ClassifiedURL.classify
  by_cases h0 : raw = none ∨ raw = some []
  · rw [if_pos h0]
    exact ⟨_, rfl⟩
  · rw [if_neg h0]
    have hraw : ∃ s, raw = some s := by
      rcases raw with _ | s
      · exact absurd (Or.inl rfl) h0
      · exact ⟨s, rfl⟩
    obtain ⟨s, hs⟩ := hraw
    subst hs
    have hbs := hb s rfl
    obtain ⟨p, hp, hpath⟩ := urlparse_ok_of_no_bracket s hbs.1 hbs.2
    simp only [Option.getD_some, hp]
    by_cases h3 : ¬ av ∧ some p.netloc ≠ via_host
    · rw [if_pos h3]
      exact init_ok _ _ none none (fun e he => nomatch he)
    · rw [if_neg h3]
      by_cases h4 : p.path = ['/']
      · rw [if_pos h4]
        exact init_ok _ _ none none (fun e he => nomatch he)
      · rw [if_neg h4]
        rcases hm : subResourceMatch p.path with _ | tr <;> simp only [hm]
        · apply init_ok
          intro e he
          cases he
          exact ⟨fun hc => hbs.1 (hpath.subset hc), fun hc => hbs.2 (hpath.subset hc)⟩
        · have hsub := subResourceMatch_snd_sublist p.path tr hm
          apply init_ok
          intro e he
          cases he
          exact ⟨fun hc => hbs.1 (hpath.subset (hsub.subset hc)),
                 fun hc => hbs.2 (hpath.subset (hsub.subset hc))⟩

/-- Witness for C4 amended: a thoroughly malformed, bracket-free string
classifies without an error. -/
theorem via_c4_witness :
    (ClassifiedURL.classify (some "%%% not a url %%%".data) (some "via".data) false).isOk
      = true := by
  obtain ⟨c, hc⟩ := via_c4_amended (some "%%% not a url %%%".data) (some "via".data) false
    (fun s hsx => by cases hsx; exact ⟨by decide, by decide⟩)
  rw [hc]
  rfl
